import Mathlib

/-!
Shallow embedding of the NASA-TLX survey application (`src/main.py`).

The program is a linear wizard over six fixed workload factors: one slider
rating page per factor, optionally a pairwise-weighting page, a score
computation on Finish, and an append-only JSON/CSV persister.  Pure logic of
each component is embedded below; theorems about the claims follow the
definitions.
-/

namespace NasaTLX

/-- The six NASA-TLX workload factors, in the fixed order of the `FACTORS`
list in `main.py`. -/
inductive Factor where
  | mentalDemand
  | physicalDemand
  | temporalDemand
  | performance
  | effort
  | frustration
deriving DecidableEq, Repr, Fintype

/-- Display name of each factor, exactly the strings of the `FACTORS`
constant in `main.py`. -/
def factorName : Factor → String
  | .mentalDemand => "Mental Demand"
  | .physicalDemand => "Physical Demand"
  | .temporalDemand => "Temporal Demand"
  | .performance => "Performance"
  | .effort => "Effort"
  | .frustration => "Frustration"

/-- The `FACTORS` list of `main.py`, in source order. -/
def FACTORS : List Factor :=
  [.mentalDemand, .physicalDemand, .temporalDemand,
   .performance, .effort, .frustration]

/-! ## Discrete slider (`TLXSlider`) -/

/-- Python's built-in `round` on an exact value: round to the nearest
integer, ties to the even neighbour. -/
def pyRound (q : ℚ) : ℤ :=
  if q - ⌊q⌋ < 1/2 then ⌊q⌋
  else if 1/2 < q - ⌊q⌋ then ⌊q⌋ + 1
  else if ⌊q⌋ % 2 = 0 then ⌊q⌋ else ⌊q⌋ + 1

/-- `TLXSlider.update_value` with the track fraction
`relative_x / (width - 20)` abstracted as the parameter `f`:
`round((min_val + f * (max_val - min_val)) / step) * step`. -/
def update_value_frac (min_val max_val step : ℤ) (f : ℚ) : ℤ :=
  pyRound ((min_val + f * (max_val - min_val)) / step) * step

/-- `TLXSlider.update_value` on a raw pointer abscissa `x` and widget width
`w`: `width = w - 20`, `relative_x = min(max(0, x - 10), width)`, then the
rounded quantised value. -/
def update_value (min_val max_val step : ℤ) (w x : ℚ) : ℤ :=
  let width := w - 20
  let relative_x := min (max 0 (x - 10)) width
  pyRound ((min_val + (relative_x / width) * (max_val - min_val)) / step) * step

/-! ## Weighting page (`create_weighting_page`, `update_weights`) -/

/-- The double loop of `create_weighting_page`:
`for i, f1 in enumerate(FACTORS): for f2 in FACTORS[i+1:]` builds one row
per pair `(f1, f2)` with `f1` strictly earlier in the list. -/
def pairsFrom : List Factor → List (Factor × Factor)
  | [] => []
  | f :: rest => rest.map (fun g => (f, g)) ++ pairsFrom rest

/-- The 15 pairwise comparison rows, in creation order. -/
def allPairs : List (Factor × Factor) := pairsFrom FACTORS

/-- State of one `QButtonGroup` row: `none` when no radio button is checked,
`some false` when the first factor's button is checked, `some true` when the
second factor's button is checked.  The group is exclusive, so the state is
a single optional selection. -/
abbrev Choice := Option Bool

/-- Text of the checked button of a row, as `btn_grp.checkedButton().text()`
returns it (`none` when no button is checked). -/
def checkedButtonText (g : (Factor × Factor) × Choice) : Option String :=
  g.2.map (fun b => if b then factorName g.1.2 else factorName g.1.1)

/-- The factor selected in a row, `none` when no button is checked. -/
def selectedFactor (g : (Factor × Factor) × Choice) : Option Factor :=
  g.2.map (fun b => if b then g.1.2 else g.1.1)

/-- `TLXApp.update_weights`: for each factor, count the button groups whose
checked button's text equals that factor's name. -/
def update_weights (choices : List Choice) : Factor → ℕ := fun factor =>
  ((allPairs.zip choices).filter
    (fun g => checkedButtonText g = some (factorName factor))).length

/-- The whole body of `TLXApp.update_weights`: recompute the weights, then
emit the warning dialog message exactly when their sum exceeds 15.  The
returned weights are computed before (and independently of) the warning. -/
def updateWeightsStep (choices : List Choice) : (Factor → ℕ) × Option String :=
  let weights := update_weights choices
  let warning :=
    if (FACTORS.map weights).sum > 15 then
      some "Total selections exceed 15. Adjust your choices."
    else none
  (weights, warning)

/-- Changing the choice of row `i`: the row's button group takes the new
selection, every other row keeps its state. -/
def setChoice (choices : List Choice) (i : ℕ) (c : Choice) : List Choice :=
  choices.set i c

/-! ## Finish step (`save_results`) -/

/-- The `result_data` dictionary built by `TLXApp.save_results`.  Mappings
are association lists so that the empty dictionaries written when weighting
is disabled are representable. -/
structure ResultRecord where
  timestamp : String
  ratings : List (Factor × ℤ)
  weights : List (Factor × ℤ)
  adjusted_ratings : List (Factor × ℤ)
  weighted_rating : ℚ
deriving DecidableEq, Repr

/-- `self.weights = {factor: 0 for factor in FACTORS}` from
`TLXApp.__init__`. -/
def initWeights : Factor → ℤ := fun _ => 0

/-- `TLXApp.save_results`, with the slider readings `R` and the current
weight tally `W` as inputs and the wall-clock timestamp as a parameter. -/
def save_results (use_weighting : Bool) (ts : String)
    (R : Factor → ℤ) (W : Factor → ℤ) : ResultRecord :=
  let ratings := FACTORS.map (fun f => (f, R f))
  let adjusted_ratings :=
    if use_weighting then FACTORS.map (fun f => (f, R f * W f)) else []
  let weighted_rating : ℚ :=
    if use_weighting then
      (((adjusted_ratings.map Prod.snd).sum : ℤ) : ℚ) / 15
    else
      (((ratings.map Prod.snd).sum : ℤ) : ℚ) / (FACTORS.length : ℚ)
  { timestamp := ts
    ratings := ratings
    weights := if use_weighting then FACTORS.map (fun f => (f, W f)) else []
    adjusted_ratings := adjusted_ratings
    weighted_rating := weighted_rating }

/-! ## Persister (`save_to_files`) -/

/-- JSON half of `TLXApp.save_to_files`: load the existing array (`[]` when
the file is absent), append the record, write the whole array back.  The
file state is the decoded array, `none` when the file does not exist. -/
def jsonAppend (state : Option (List ResultRecord)) (r : ResultRecord) :
    List ResultRecord :=
  (match state with
   | some data => data
   | none => []) ++ [r]

/-- The CSV ``fieldnames`` list of `save_to_files`. -/
def fieldnames (use_weighting : Bool) : List String :=
  ["timestamp"] ++ FACTORS.map factorName ++
    (if use_weighting then
       FACTORS.map (fun f => "adjusted_" ++ factorName f)
     else []) ++
    ["weighted_rating"]

/-- `dict.get(key, '')` rendered as a CSV cell. -/
def cellOf : Option ℤ → String
  | some n => toString n
  | none => ""

/-- The `csv_data` row of `save_to_files`, serialised in `fieldnames`
order as `csv.DictWriter.writerow` does. -/
def csvRow (use_weighting : Bool) (r : ResultRecord) : List String :=
  [r.timestamp] ++
    FACTORS.map (fun f => cellOf (r.ratings.lookup f)) ++
    (if use_weighting then
       FACTORS.map (fun f => cellOf (r.adjusted_ratings.lookup f))
     else []) ++
    [toString r.weighted_rating]

/-- CSV half of `save_to_files`: append one row, writing the header first
exactly when the file did not yet exist.  The file state is the list of
rows, `none` when the file does not exist. -/
def csvAppend (state : Option (List (List String))) (use_weighting : Bool)
    (r : ResultRecord) : List (List String) :=
  (match state with
   | some rows => rows
   | none => [fieldnames use_weighting]) ++ [csvRow use_weighting r]

/-- `TLXApp.save_to_files` as a whole: the JSON append and the CSV append
on the pair of file states. -/
def save_to_files (use_weighting : Bool)
    (jsonState : Option (List ResultRecord))
    (csvState : Option (List (List String))) (r : ResultRecord) :
    List ResultRecord × List (List String) :=
  (jsonAppend jsonState r, csvAppend csvState use_weighting r)

/-- Iterated CSV appends: the file state after writing each record of the
list in order. -/
def csvAppendN (use_weighting : Bool) (state : Option (List (List String))) :
    List ResultRecord → Option (List (List String))
  | [] => state
  | r :: rs => csvAppendN use_weighting (some (csvAppend state use_weighting r)) rs

/-! ## Helper lemmas about `pyRound` -/

lemma floor_frac_nonneg (q : ℚ) : 0 ≤ q - ⌊q⌋ := by
  have h := Int.floor_le q
  linarith

lemma floor_frac_lt_one (q : ℚ) : q - ⌊q⌋ < 1 := by
  have h := Int.lt_floor_add_one q
  linarith

lemma pyRound_eq_floor_or (q : ℚ) : pyRound q = ⌊q⌋ ∨ pyRound q = ⌊q⌋ + 1 := by
  unfold pyRound
  split_ifs <;> simp

lemma abs_pyRound_sub_le_half (q : ℚ) : |(pyRound q : ℚ) - q| ≤ 1/2 := by
  have h0 := floor_frac_nonneg q
  have h1 := floor_frac_lt_one q
  rw [abs_le]
  unfold pyRound
  split_ifs with hlt hgt heven
  · constructor <;> linarith
  · push_cast
    constructor <;> linarith
  · constructor <;> linarith [le_of_not_lt hlt, le_of_not_lt hgt]
  · push_cast
    constructor <;> linarith [le_of_not_lt hlt, le_of_not_lt hgt]

lemma pyRound_nearest (q : ℚ) (m : ℤ) :
    |(pyRound q : ℚ) - q| ≤ |(m : ℚ) - q| := by
  rcases eq_or_ne m (pyRound q) with h | h
  · rw [h]
  · have h2 := abs_pyRound_sub_le_half q
    have h3 : (1 : ℚ) ≤ |(m : ℚ) - (pyRound q : ℚ)| := by
      have := Int.one_le_abs (sub_ne_zero.mpr h)
      calc (1 : ℚ) = ((1 : ℤ) : ℚ) := by norm_num
        _ ≤ ((|m - pyRound q| : ℤ) : ℚ) := by exact_mod_cast this
        _ = |(m : ℚ) - (pyRound q : ℚ)| := by push_cast; ring
    have h4 : |(m : ℚ) - (pyRound q : ℚ)| ≤ |(m : ℚ) - q| + |q - (pyRound q : ℚ)| :=
      abs_sub_le _ _ _
    have h5 : |q - (pyRound q : ℚ)| = |(pyRound q : ℚ) - q| := abs_sub_comm _ _
    linarith

lemma le_pyRound (q : ℚ) (a : ℤ) (h : (a : ℚ) ≤ q) : a ≤ pyRound q := by
  have hfl : a ≤ ⌊q⌋ := Int.le_floor.mpr h
  rcases pyRound_eq_floor_or q with h1 | h1 <;> omega

lemma pyRound_le (q : ℚ) (b : ℤ) (h : q ≤ (b : ℚ)) : pyRound q ≤ b := by
  have hfl : ⌊q⌋ ≤ b := by
    have h2 := Int.floor_mono h
    rwa [Int.floor_intCast] at h2
  have hstrict : (1 : ℚ)/2 ≤ q - ⌊q⌋ → ⌊q⌋ + 1 ≤ b := by
    intro hq
    have h3 : (⌊q⌋ : ℚ) < (b : ℚ) := by linarith
    have h4 : ⌊q⌋ < b := by exact_mod_cast h3
    omega
  unfold pyRound
  split_ifs with hlt hgt heven
  · exact hfl
  · exact hstrict (le_of_not_lt hlt)
  · exact hfl
  · exact hstrict (le_of_not_lt hlt)

/-! ## Helper lemmas about the slider value -/

lemma update_value_frac_def (min_val max_val step : ℤ) (f : ℚ) :
    update_value_frac min_val max_val step f =
      pyRound (((min_val : ℚ) + f * ((max_val : ℚ) - (min_val : ℚ))) / (step : ℚ)) * step := rfl

lemma update_value_frac_target_div (min_val max_val step : ℤ) (f : ℚ)
    (hs : 0 < step) (hmin : step ∣ min_val) (hdvd : step ∣ max_val - min_val)
    (hle : min_val ≤ max_val) :
    ∃ a d : ℤ, min_val = step * a ∧ max_val - min_val = step * d ∧ 0 ≤ d ∧
      ((min_val : ℚ) + f * ((max_val : ℚ) - (min_val : ℚ))) / (step : ℚ) =
        (a : ℚ) + f * (d : ℚ) := by
  obtain ⟨a, ha⟩ := hmin
  obtain ⟨d, hd⟩ := hdvd
  have hd0 : 0 ≤ d := by
    by_contra hneg
    push_neg at hneg
    have h1 : step * d < 0 := mul_neg_of_pos_of_neg hs hneg
    omega
  refine ⟨a, d, ha, hd, hd0, ?_⟩
  have hstep0 : (step : ℚ) ≠ 0 := by
    exact_mod_cast hs.ne'
  have hmin' : (min_val : ℚ) = (step : ℚ) * (a : ℚ) := by
    rw [ha]; push_cast; ring
  have hd' : (max_val : ℚ) - (min_val : ℚ) = (step : ℚ) * (d : ℚ) := by
    rw [show (max_val : ℚ) - (min_val : ℚ) = ((max_val - min_val : ℤ) : ℚ) by push_cast; ring, hd]
    push_cast; ring
  rw [hd', hmin']
  field_simp
  ring

lemma update_value_frac_bounds (min_val max_val step : ℤ) (f : ℚ)
    (hs : 0 < step) (hmin : step ∣ min_val) (hdvd : step ∣ max_val - min_val)
    (hle : min_val ≤ max_val) (hf0 : 0 ≤ f) (hf1 : f ≤ 1) :
    min_val ≤ update_value_frac min_val max_val step f ∧
      update_value_frac min_val max_val step f ≤ max_val := by
  obtain ⟨a, d, ha, hd, hd0, hq⟩ :=
    update_value_frac_target_div min_val max_val step f hs hmin hdvd hle
  rw [update_value_frac_def, hq]
  have hd0' : (0 : ℚ) ≤ (d : ℚ) := by exact_mod_cast hd0
  have hlow : (a : ℚ) ≤ (a : ℚ) + f * (d : ℚ) := by nlinarith
  have hhigh : (a : ℚ) + f * (d : ℚ) ≤ ((a + d : ℤ) : ℚ) := by push_cast; nlinarith
  have hr1 : a ≤ pyRound ((a : ℚ) + f * (d : ℚ)) := le_pyRound _ a hlow
  have hr2 : pyRound ((a : ℚ) + f * (d : ℚ)) ≤ a + d := pyRound_le _ (a + d) hhigh
  constructor
  · calc min_val = a * step := by rw [mul_comm]; exact ha
      _ ≤ pyRound ((a : ℚ) + f * (d : ℚ)) * step :=
          mul_le_mul_of_nonneg_right hr1 hs.le
  · calc pyRound ((a : ℚ) + f * (d : ℚ)) * step ≤ (a + d) * step :=
          mul_le_mul_of_nonneg_right hr2 hs.le
      _ = max_val := by rw [mul_comm, mul_add, ← ha, ← hd]; omega

lemma update_value_frac_dvd (min_val max_val step : ℤ) (f : ℚ) :
    step ∣ update_value_frac min_val max_val step f :=
  dvd_mul_left step _

lemma update_value_frac_nearest (min_val max_val step : ℤ) (f : ℚ)
    (hs : 0 < step) (m : ℤ) (hm : step ∣ m) :
    |(update_value_frac min_val max_val step f : ℚ) -
        ((min_val : ℚ) + f * ((max_val : ℚ) - (min_val : ℚ)))| ≤
      |(m : ℚ) - ((min_val : ℚ) + f * ((max_val : ℚ) - (min_val : ℚ)))| := by
  obtain ⟨k, hk⟩ := hm
  have hstep0 : (step : ℚ) ≠ 0 := by exact_mod_cast hs.ne'
  set t : ℚ := (min_val : ℚ) + f * ((max_val : ℚ) - (min_val : ℚ)) with ht
  set q : ℚ := t / (step : ℚ) with hqdef
  have hqt : q * (step : ℚ) = t := div_mul_cancel₀ t hstep0
  have h1 : (update_value_frac min_val max_val step f : ℚ) = (pyRound q : ℚ) * (step : ℚ) := by
    rw [update_value_frac_def]
    push_cast
    rfl
  have h2 : (m : ℚ) = (k : ℚ) * (step : ℚ) := by
    rw [hk]; push_cast; ring
  rw [h1, h2]
  have e1 : (pyRound q : ℚ) * (step : ℚ) - t = ((pyRound q : ℚ) - q) * (step : ℚ) := by
    rw [sub_mul, hqt]
  have e2 : (k : ℚ) * (step : ℚ) - t = ((k : ℚ) - q) * (step : ℚ) := by
    rw [sub_mul, hqt]
  rw [e1, e2, abs_mul, abs_mul]
  exact mul_le_mul_of_nonneg_right (pyRound_nearest q k) (abs_nonneg _)

/-! ## Helper lemmas about the weighting page and persistence -/

lemma factorName_injective : Function.Injective factorName := by
  decide

lemma checkedButtonText_eq_iff (g : (Factor × Factor) × Choice) (f : Factor) :
    (checkedButtonText g = some (factorName f)) ↔ (selectedFactor g = some f) := by
  obtain ⟨⟨a, b⟩, c⟩ := g
  cases c with
  | none => simp [checkedButtonText, selectedFactor]
  | some bb =>
    cases bb <;>
      simp [checkedButtonText, selectedFactor, factorName_injective.eq_iff]

lemma update_weights_eq_selected_count (choices : List Choice) (f : Factor) :
    update_weights choices f =
      ((allPairs.zip choices).filter (fun g => selectedFactor g = some f)).length := by
  unfold update_weights
  congr 1
  exact List.filter_congr (fun g _ => decide_eq_decide.mpr (checkedButtonText_eq_iff g f))

lemma csvAppendN_some (use_weighting : Bool) (rs : List ResultRecord) :
    ∀ rows : List (List String),
      csvAppendN use_weighting (some rows) rs =
        some (rows ++ rs.map (csvRow use_weighting)) := by
  induction rs with
  | nil => intro rows; simp [csvAppendN]
  | cons r rs' ih =>
    intro rows
    show csvAppendN use_weighting (some (csvAppend (some rows) use_weighting r)) rs' = _
    rw [ih]
    simp [csvAppend]

lemma csvRow_length (use_weighting : Bool) (r : ResultRecord) :
    (csvRow use_weighting r).length = (fieldnames use_weighting).length := by
  cases use_weighting <;> simp [csvRow, fieldnames, FACTORS]

lemma update_value_eq_frac (min_val max_val step : ℤ) (w x : ℚ) :
    update_value min_val max_val step w x =
      update_value_frac min_val max_val step
        (min (max 0 (x - 10)) (w - 20) / (w - 20)) := rfl

lemma track_fraction_bounds (w x : ℚ) (hw : 20 < w) :
    0 ≤ min (max 0 (x - 10)) (w - 20) / (w - 20) ∧
      min (max 0 (x - 10)) (w - 20) / (w - 20) ≤ 1 := by
  have hwid : (0:ℚ) < w - 20 := by linarith
  constructor
  · exact div_nonneg (le_min (le_max_left 0 _) hwid.le) hwid.le
  · rw [div_le_one hwid]
    exact min_le_right _ _

/-! ## Claim theorems -/

/-- C1: for every ratings mapping `R` (factor → [0,100]) and weights mapping
`W` (factor → [0,15]), with weighting enabled the Finish step produces
`weighted_rating = (sum over the six factors of R[f]*W[f]) / 15` and
`adjusted_ratings[f] = R[f]*W[f]` for each factor. -/
theorem claim_C1 (ts : String) (R W : Factor → ℤ)
    (hR : ∀ f, 0 ≤ R f ∧ R f ≤ 100) (hW : ∀ f, 0 ≤ W f ∧ W f ≤ 15) :
    (save_results true ts R W).weighted_rating =
        (((FACTORS.map (fun f => R f * W f)).sum : ℤ) : ℚ) / 15 ∧
      ∀ f : Factor,
        (save_results true ts R W).adjusted_ratings.lookup f = some (R f * W f) := by
  constructor
  · simp [save_results, FACTORS]
  · intro f
    cases f <;> rfl

theorem claim_C1_witness :
    (save_results true "2024-01-01T00:00:00" (fun _ => 50) (fun _ => 1)).weighted_rating =
        (((FACTORS.map (fun f => (50 : ℤ) * 1)).sum : ℤ) : ℚ) / 15 ∧
      ∀ f : Factor,
        (save_results true "2024-01-01T00:00:00" (fun _ => 50)
            (fun _ => 1)).adjusted_ratings.lookup f = some (50 * 1) :=
  claim_C1 "2024-01-01T00:00:00" (fun _ => 50) (fun _ => 1)
    (by decide) (by decide)

/-- C2: for every ratings mapping `R` (factor → [0,100]), with weighting
disabled the Finish step produces `weighted_rating = (sum of the six
ratings) / 6`, and the `weights` and `adjusted_ratings` mappings of the
result record are both empty. -/
theorem claim_C2 (ts : String) (R W : Factor → ℤ)
    (hR : ∀ f, 0 ≤ R f ∧ R f ≤ 100) :
    (save_results false ts R W).weighted_rating =
        (((FACTORS.map R).sum : ℤ) : ℚ) / 6 ∧
      (save_results false ts R W).weights = [] ∧
      (save_results false ts R W).adjusted_ratings = [] := by
  refine ⟨?_, rfl, rfl⟩
  simp [save_results, FACTORS]

theorem claim_C2_witness :
    (save_results false "2024-01-01T00:00:00" (fun _ => 50) (fun _ => 0)).weighted_rating =
        (((FACTORS.map (fun _ => (50 : ℤ))).sum : ℤ) : ℚ) / 6 ∧
      (save_results false "2024-01-01T00:00:00" (fun _ => 50) (fun _ => 0)).weights = [] ∧
      (save_results false "2024-01-01T00:00:00" (fun _ => 50)
          (fun _ => 0)).adjusted_ratings = [] :=
  claim_C2 "2024-01-01T00:00:00" (fun _ => 50) (fun _ => 0) (by decide)

/-- C3 fails as stated: with `min_val = 1`, `max_val = 11`, `step = 5`
(where `step` divides `max_val - min_val`) and fraction `f = 0`, the code
computes `round(1/5)*5 = 0`, which is not within `[min_val, max_val]`
(and is not of the form `min_val + k*step`): the rounding snaps to
multiples of `step` counted from 0, not from `min_val`. -/
theorem claim_C3_counterexample :
    (5 : ℤ) ∣ (11 - 1) ∧ (0 : ℚ) ≤ 0 ∧ (0 : ℚ) ≤ 1 ∧
      update_value_frac 1 11 5 0 = 0 ∧
      ¬(1 ≤ update_value_frac 1 11 5 0) := by
  have h : update_value_frac 1 11 5 0 = 0 := by
    unfold update_value_frac pyRound
    norm_num
  exact ⟨by decide, by decide, by decide, h, by rw [h]; decide⟩

/-- C3 (amended): additionally assuming that `min_val` itself is a multiple
of `step` (true of the only configuration the program builds, the default
`min_val = 0`), setting the slider from a track fraction `f ∈ [0,1]` yields
a value that is a multiple of `step`, lies within `[min_val, max_val]`, and
is a nearest such multiple to `min_val + f*(max_val - min_val)`. -/
theorem claim_C3 (min_val max_val step : ℤ) (f : ℚ)
    (hs : 0 < step) (hminmul : step ∣ min_val) (hdvd : step ∣ max_val - min_val)
    (hle : min_val ≤ max_val) (hf0 : 0 ≤ f) (hf1 : f ≤ 1) :
    step ∣ update_value_frac min_val max_val step f ∧
      min_val ≤ update_value_frac min_val max_val step f ∧
      update_value_frac min_val max_val step f ≤ max_val ∧
      ∀ m : ℤ, step ∣ m → min_val ≤ m → m ≤ max_val →
        |(update_value_frac min_val max_val step f : ℚ) -
            ((min_val : ℚ) + f * ((max_val : ℚ) - (min_val : ℚ)))| ≤
          |(m : ℚ) - ((min_val : ℚ) + f * ((max_val : ℚ) - (min_val : ℚ)))| := by
  obtain ⟨h1, h2⟩ := update_value_frac_bounds min_val max_val step f hs hminmul hdvd hle hf0 hf1
  exact ⟨update_value_frac_dvd min_val max_val step f, h1, h2,
    fun m hm _ _ => update_value_frac_nearest min_val max_val step f hs m hm⟩

theorem claim_C3_witness :
    (0 : ℤ) < 5 ∧ ((5 : ℤ) ∣ 0) ∧ ((5 : ℤ) ∣ 100 - 0) ∧ (0 : ℤ) ≤ 100 ∧
      (0 : ℚ) ≤ 0 ∧ (0 : ℚ) ≤ 1 ∧
      ((5 : ℤ) ∣ update_value_frac 0 100 5 0 ∧
        0 ≤ update_value_frac 0 100 5 0 ∧
        update_value_frac 0 100 5 0 ≤ 100 ∧
        ∀ m : ℤ, (5 : ℤ) ∣ m → 0 ≤ m → m ≤ 100 →
          |(update_value_frac 0 100 5 0 : ℚ) -
              (((0 : ℤ) : ℚ) + 0 * (((100 : ℤ) : ℚ) - ((0 : ℤ) : ℚ)))| ≤
            |(m : ℚ) - (((0 : ℤ) : ℚ) + 0 * (((100 : ℤ) : ℚ) - ((0 : ℤ) : ℚ)))|) :=
  ⟨by decide, by decide, by decide, by decide, by decide, by decide,
    claim_C3 0 100 5 0 (by decide) (by decide) (by decide) (by decide)
      (by decide) (by decide)⟩

/-- C4: for every assignment of the 15 pairwise choices, the recomputed
weight tally maps each factor to exactly the number of comparisons in which
that factor is the currently selected one. -/
theorem claim_C4 (choices : List Choice) (f : Factor)
    (hlen : choices.length = 15) :
    update_weights choices f =
      ((allPairs.zip choices).filter (fun g => selectedFactor g = some f)).length :=
  update_weights_eq_selected_count choices f

theorem claim_C4_witness :
    (List.replicate 5 (some false) ++ List.replicate 10 (none : Choice)).length = 15 ∧
      update_weights (List.replicate 5 (some false) ++ List.replicate 10 (none : Choice))
          Factor.mentalDemand =
        ((allPairs.zip
              (List.replicate 5 (some false) ++ List.replicate 10 (none : Choice))).filter
            (fun g => selectedFactor g = some Factor.mentalDemand)).length :=
  ⟨by decide,
    claim_C4 (List.replicate 5 (some false) ++ List.replicate 10 (none : Choice))
      Factor.mentalDemand (by decide)⟩

/-- C5: `save_to_files` appends the record to the JSON array: a well-formed
existing array of N records becomes an array of N+1 records whose first N
elements are the prior records unchanged and whose last element is the new
record; appending to an absent log yields the one-element array of the
appended record. -/
theorem claim_C5 (old : List ResultRecord) (r : ResultRecord) :
    (∀ (u : Bool) (cs : Option (List (List String))),
        (save_to_files u (some old) cs r).1 = old ++ [r]) ∧
      (jsonAppend (some old) r).length = old.length + 1 ∧
      (jsonAppend (some old) r).take old.length = old ∧
      (jsonAppend (some old) r).getLast? = some r ∧
      jsonAppend none r = [r] := by
  refine ⟨fun _ _ => rfl, by simp [jsonAppend], ?_, ?_, rfl⟩
  · show (old ++ [r]).take old.length = old
    simp
  · show (old ++ [r]).getLast? = some r
    simp

/-- C6: appending N ≥ 1 records to a fresh CSV log in a fixed weighting
mode yields exactly one header row followed by the N data rows, all rows
with the same column count, the header columns in the order: `timestamp`,
the six factor names, optionally the six `adjusted_<factor>` names (when
weighting is enabled), then `weighted_rating`. -/
theorem claim_C6 (use_weighting : Bool) (rs : List ResultRecord)
    (hlen : 1 ≤ rs.length) :
    csvAppendN use_weighting none rs =
        some (fieldnames use_weighting :: rs.map (csvRow use_weighting)) ∧
      (fieldnames use_weighting :: rs.map (csvRow use_weighting)).length =
        rs.length + 1 ∧
      (∀ r : ResultRecord,
        (csvRow use_weighting r).length = (fieldnames use_weighting).length) ∧
      fieldnames use_weighting =
        (if use_weighting then
           ["timestamp", "Mental Demand", "Physical Demand", "Temporal Demand",
            "Performance", "Effort", "Frustration",
            "adjusted_Mental Demand", "adjusted_Physical Demand",
            "adjusted_Temporal Demand", "adjusted_Performance",
            "adjusted_Effort", "adjusted_Frustration", "weighted_rating"]
         else
           ["timestamp", "Mental Demand", "Physical Demand", "Temporal Demand",
            "Performance", "Effort", "Frustration", "weighted_rating"]) := by
  refine ⟨?_, by simp, csvRow_length use_weighting, by cases use_weighting <;> rfl⟩
  cases rs with
  | nil => simp at hlen
  | cons r rs' =>
    show csvAppendN use_weighting (some (csvAppend none use_weighting r)) rs' = _
    rw [csvAppendN_some]
    simp [csvAppend]

theorem claim_C6_witness :
    1 ≤ ([{ timestamp := "t", ratings := [], weights := [], adjusted_ratings := [],
            weighted_rating := 0 }] : List ResultRecord).length ∧
      (csvAppendN true none
          [{ timestamp := "t", ratings := [], weights := [], adjusted_ratings := [],
             weighted_rating := 0 }] =
        some (fieldnames true ::
          ([{ timestamp := "t", ratings := [], weights := [], adjusted_ratings := [],
              weighted_rating := 0 }] : List ResultRecord).map (csvRow true)) ∧
      (fieldnames true ::
          ([{ timestamp := "t", ratings := [], weights := [], adjusted_ratings := [],
              weighted_rating := 0 }] : List ResultRecord).map (csvRow true)).length =
        ([{ timestamp := "t", ratings := [], weights := [], adjusted_ratings := [],
            weighted_rating := 0 }] : List ResultRecord).length + 1 ∧
      (∀ r : ResultRecord, (csvRow true r).length = (fieldnames true).length) ∧
      fieldnames true =
        (if true then
           ["timestamp", "Mental Demand", "Physical Demand", "Temporal Demand",
            "Performance", "Effort", "Frustration",
            "adjusted_Mental Demand", "adjusted_Physical Demand",
            "adjusted_Temporal Demand", "adjusted_Performance",
            "adjusted_Effort", "adjusted_Frustration", "weighted_rating"]
         else
           ["timestamp", "Mental Demand", "Physical Demand", "Temporal Demand",
            "Performance", "Effort", "Frustration", "weighted_rating"])) :=
  ⟨by decide,
    claim_C6 true
      [{ timestamp := "t", ratings := [], weights := [], adjusted_ratings := [],
         weighted_rating := 0 }] (by decide)⟩

/-- C7: the validation warning of `update_weights` is emitted if and only
if the sum of all factor tallies exceeds 15, and it neither blocks the
survey (the step always returns the recomputed weights) nor modifies the
tally state (the returned weights are exactly the recomputed tally,
independent of the warning). -/
theorem claim_C7 (choices : List Choice) :
    ((updateWeightsStep choices).2.isSome = true ↔
        15 < (FACTORS.map (update_weights choices)).sum) ∧
      (updateWeightsStep choices).1 = update_weights choices := by
  refine ⟨?_, rfl⟩
  unfold updateWeightsStep
  dsimp only
  split_ifs with h
  · simp [h]
  · simp [h]

/-- C8: the weighting page contains exactly C(6,2) = 15 binary-choice rows,
one per unordered pair of distinct factors, enumerated in the fixed factor
order with each pair appearing exactly once; within a row the two
alternatives are mutually exclusive, and a change to one row leaves every
other row unchanged. -/
theorem claim_C8 :
    allPairs.length = 15 ∧
      allPairs.Nodup ∧
      (∀ p ∈ allPairs, p.1 ≠ p.2) ∧
      (∀ p ∈ allPairs, FACTORS.indexOf p.1 < FACTORS.indexOf p.2) ∧
      (∀ f g : Factor, f ≠ g →
        ((f, g) ∈ allPairs ∧ (g, f) ∉ allPairs) ∨
          ((g, f) ∈ allPairs ∧ (f, g) ∉ allPairs)) ∧
      (∀ p ∈ allPairs, ∀ c : Choice,
        ¬(selectedFactor (p, c) = some p.1 ∧ selectedFactor (p, c) = some p.2)) ∧
      (∀ (choices : List Choice) (i : ℕ) (c : Choice) (j : ℕ), j ≠ i →
        (setChoice choices i c)[j]? = choices[j]?) := by
  refine ⟨by decide, by decide, by decide, by decide, by decide, by decide, ?_⟩
  intro choices i c j hj
  exact List.getElem?_set_ne (by omega)

theorem claim_C8_witness :
    Factor.mentalDemand ≠ Factor.physicalDemand ∧
      (((Factor.mentalDemand, Factor.physicalDemand) ∈ allPairs ∧
          (Factor.physicalDemand, Factor.mentalDemand) ∉ allPairs) ∨
        ((Factor.physicalDemand, Factor.mentalDemand) ∈ allPairs ∧
          (Factor.mentalDemand, Factor.physicalDemand) ∉ allPairs)) ∧
      (1 : ℕ) ≠ 0 ∧
      (setChoice [none, some true] 0 (some false))[1]? = ([none, some true] : List Choice)[1]? :=
  ⟨by decide,
    claim_C8.2.2.2.2.1 Factor.mentalDemand Factor.physicalDemand (by decide),
    by decide,
    claim_C8.2.2.2.2.2.2 [none, some true] 0 (some false) 1 (by decide)⟩

/-- C9: with weighting enabled and no pairwise choice ever made, every
factor's weight keeps its initial value 0 (from `__init__`), so the Finish
step produces `weighted_rating = 0` and every adjusted rating 0, for any
slider values. -/
theorem claim_C9 (ts : String) (R : Factor → ℤ) :
    (save_results true ts R initWeights).weighted_rating = 0 ∧
      ∀ f : Factor,
        (save_results true ts R initWeights).adjusted_ratings.lookup f = some 0 := by
  constructor
  · simp [save_results, initWeights, FACTORS]
  · intro f
    have h : (save_results true ts R initWeights).adjusted_ratings.lookup f =
        some (R f * 0) := by
      cases f <;> rfl
    rw [h, mul_zero]

/-- C10: `update_value` divides by the widget width minus 20 with no guard;
when the widget width exceeds 20 the divisor is nonzero and, for the
slider configuration the program constructs (`min_val = 0`, `max_val = 100`,
`step = 5`), the resulting value always lies within `[min_val, max_val]`
for every pointer abscissa, thanks to the clamp on the relative position. -/
theorem claim_C10 (w x : ℚ) (hw : 20 < w) :
    w - 20 ≠ 0 ∧
      0 ≤ update_value 0 100 5 w x ∧
      update_value 0 100 5 w x ≤ 100 := by
  obtain ⟨hf0, hf1⟩ := track_fraction_bounds w x hw
  have hb := update_value_frac_bounds 0 100 5
    (min (max 0 (x - 10)) (w - 20) / (w - 20))
    (by decide) (by decide) (by decide) (by decide) hf0 hf1
  refine ⟨?_, ?_, ?_⟩
  · have : (0:ℚ) < w - 20 := by linarith
    exact this.ne'
  · rw [update_value_eq_frac]
    exact hb.1
  · rw [update_value_eq_frac]
    exact hb.2

theorem claim_C10_witness :
    (20 : ℚ) < 120 ∧
      ((120 : ℚ) - 20 ≠ 0 ∧
        0 ≤ update_value 0 100 5 120 30 ∧
        update_value 0 100 5 120 30 ≤ 100) :=
  ⟨by decide, claim_C10 120 30 (by decide)⟩

end NasaTLX
